import Mathlib

/-!
Verification development for the basestatus-processor service.

The service (src/index.js, src/utils.js) pulls status-page RSS feeds,
upserts feed items into a `service_events` table, and asks an LLM to
normalize each event description into four structured fields.  This file
gives a shallow embedding of the pure control flow of that code:

* the datastore is a `List EventRow`;
* the supabase RPC call of `processBatch` resolves with a tagged result
  and never rejects, which we model with a per-item failure predicate;
* the LLM collaborator is a function from a description to either an
  upstream error or a response body, the body represented by its JSON
  parse result (`none` when `JSON.parse` would throw);
* each Express handler becomes a function from its inputs and the
  datastore to an outcome record (the HTTP response actually sent
  through `res`, the new datastore, and observability counters).
-/

/-- JSON values, used to model `JSON.parse` results of LLM response bodies. -/
inductive Json where
  | null
  | bool (b : Bool)
  | num (n : Int)
  | str (s : String)
  | arr (elems : List Json)
  | obj (fields : List (String × Json))

/-- JavaScript truthiness of a parsed JSON value, used by the `if (!res)` check. -/
def Json.truthy : Json → Bool
  | .null => false
  | .bool b => b
  | .num n => n != 0
  | .str s => s != ""
  | .arr _ => true
  | .obj _ => true

/-- Own enumerable properties produced by the JS object spread in
`.update(\x7b...res\x7d)`: the fields of an object, nothing for the
other JSON values we care about. -/
def Json.spreadFields : Json → List (String × Json)
  | .obj fs => fs
  | _ => []

/-- A feed item as produced by `rss-parser`: the fields `processBatch` reads. -/
structure FeedItem where
  guid : String
  title : String
  content : String
  isoDate : String
deriving DecidableEq

/-- A row of the `service_events` table. -/
structure EventRow where
  id : Nat
  service_id : Nat
  guid : String
  title : String
  description : String
  pub_date : String
  status : Option String
  translated_description : Option String
  accumulated_time_minutes : Option Int
  severity : Option String
deriving DecidableEq

/-- The natural key (service identifier, guid) of an event row. -/
def eventKey (serviceId : Nat) (guid : String) (r : EventRow) : Bool :=
  r.service_id == serviceId && r.guid == guid

/-- Overwrite title, description and publish timestamp of a row. -/
def updFields (t d p : String) (r : EventRow) : EventRow :=
  { r with title := t, description := d, pub_date := p }

/-- A freshly inserted event row: structured fields all null. -/
def newEventRow (nextId serviceId : Nat) (guid t d p : String) : EventRow :=
  ⟨nextId, serviceId, guid, t, d, p, none, none, none, none⟩

/-- Modelled from the spec: the stored procedure `upsert_service_event`
invoked via `supabase.rpc` in `processBatch` is not part of the repository
(only its call site is).  Per the spec, it inserts a new Event row if no
row exists for (serviceId, guid), otherwise updates title, description and
publish timestamp of the existing row, leaving structured fields
untouched. -/
def upsert_service_event (db : List EventRow) (serviceId : Nat) (guid t d p : String) :
    List EventRow :=
  if db.any (eventKey serviceId guid) then
    db.map (fun r => if eventKey serviceId guid r then updFields t d p r else r)
  else
    db ++ [newEventRow db.length serviceId guid t d p]

/-- Outcome of one `supabase.rpc("upsert_service_event", ...)` call.  The
supabase client resolves with a tagged `\x7bdata, error\x7d` result and does not
reject, so the promise always settles with one of these. -/
inductive UpsertResult where
  | ok
  | err
deriving DecidableEq

/-- One RPC upsert call inside a `processBatch` group: a per-item failure
predicate `netFail` models datastore-level rejection of that item; a
failing call has no effect on the datastore and resolves with `err`. -/
def rpcCall (netFail : FeedItem → Bool) (serviceId : Nat) (db : List EventRow)
    (item : FeedItem) : List EventRow × UpsertResult :=
  if netFail item then (db, UpsertResult.err)
  else (upsert_service_event db serviceId item.guid item.title item.content item.isoDate,
        UpsertResult.ok)

/-- Run the upsert calls of one group (`batch.map(...)` then `Promise.all`),
collecting every item's settled outcome. -/
def runGroup (netFail : FeedItem → Bool) (serviceId : Nat) :
    List FeedItem → List EventRow → List EventRow × List UpsertResult
  | [], db => (db, [])
  | it :: rest, db =>
    let p := rpcCall netFail serviceId db it
    let q := runGroup netFail serviceId rest p.1
    (q.1, p.2 :: q.2)

/-- The `for (let i = 0; i < items.length; i += batchSize)` loop of
`processBatch` (src/utils.js lines 3-16), with explicit fuel: each
iteration takes one group of `batchSize` items off the front; `none`
means the fuel ran out before the loop condition failed (with
`batchSize = 0` the index `i` never advances, so the loop never exits
on a non-empty list). -/
def processBatchLoop (netFail : FeedItem → Bool) (serviceId batchSize : Nat) :
    Nat → List FeedItem → List EventRow → Option (List EventRow × List UpsertResult)
  | _, [], db => some (db, [])
  | 0, _ :: _, _ => none
  | fuel + 1, it :: rest, db =>
    let g := runGroup netFail serviceId ((it :: rest).take batchSize) db
    match processBatchLoop netFail serviceId batchSize fuel ((it :: rest).drop batchSize) g.1 with
    | none => none
    | some r => some (r.1, g.2 ++ r.2)

/-- `processBatch(serviceId, items, batchSize)` from src/utils.js: returns
the service identifier together with the collected per-item results. -/
def processBatch (netFail : FeedItem → Bool) (serviceId : Nat) (items : List FeedItem)
    (batchSize : Nat) (db : List EventRow) :
    Option (List EventRow × Nat × List UpsertResult) :=
  match processBatchLoop netFail serviceId batchSize items.length items db with
  | none => none
  | some r => some (r.1, serviceId, r.2)

/-- The state transformation of one item's upsert call (ignoring the result). -/
def applyItem (netFail : FeedItem → Bool) (serviceId : Nat) (db : List EventRow)
    (it : FeedItem) : List EventRow :=
  (rpcCall netFail serviceId db it).1

/-- The settled outcome of one item's upsert call, a function of the item alone. -/
def itemOutcome (netFail : FeedItem → Bool) (it : FeedItem) : UpsertResult :=
  if netFail it then UpsertResult.err else UpsertResult.ok

/-- Consecutive groups of at most `batchSize` taken off the front of the
list, with the same fuel discipline as `processBatchLoop`. -/
def chunksFuel {α : Type} (batchSize : Nat) : Nat → List α → List (List α)
  | _, [] => []
  | 0, _ :: _ => []
  | fuel + 1, it :: rest =>
    (it :: rest).take batchSize :: chunksFuel batchSize fuel ((it :: rest).drop batchSize)

/-- Strictly sequential execution of groups: group N+1 starts from the
datastore state left by group N, after every call of group N settled. -/
def runGroups (netFail : FeedItem → Bool) (serviceId : Nat) :
    List (List FeedItem) → List EventRow → List EventRow × List UpsertResult
  | [], db => (db, [])
  | g :: gs, db =>
    let p := runGroup netFail serviceId g db
    let q := runGroups netFail serviceId gs p.1
    (q.1, p.2 ++ q.2)

/-- The LLM collaborator: from an event description to either an upstream
error (the API call rejects) or a response body, the body represented by
its JSON parse result (`none` when `JSON.parse` would throw). -/
def Llm : Type :=
  String → Except Unit (Option Json)

/-- Whether one column assignment of a supabase `.update` payload is
accepted by the `service_events` schema (known column name, value of the
column's type). -/
def fieldOk : String × Json → Bool
  | ("id", Json.num _) => true
  | ("service_id", Json.num _) => true
  | ("guid", Json.str _) => true
  | ("title", Json.str _) => true
  | ("description", Json.str _) => true
  | ("pub_date", Json.str _) => true
  | ("status", Json.str _) => true
  | ("status", Json.null) => true
  | ("translated_description", Json.str _) => true
  | ("translated_description", Json.null) => true
  | ("accumulated_time_minutes", Json.num _) => true
  | ("accumulated_time_minutes", Json.null) => true
  | ("severity", Json.str _) => true
  | ("severity", Json.null) => true
  | _ => false

/-- Apply one accepted column assignment to a row. -/
def setField (r : EventRow) : String × Json → EventRow
  | ("id", Json.num n) => { r with id := n.toNat }
  | ("service_id", Json.num n) => { r with service_id := n.toNat }
  | ("guid", Json.str s) => { r with guid := s }
  | ("title", Json.str s) => { r with title := s }
  | ("description", Json.str s) => { r with description := s }
  | ("pub_date", Json.str s) => { r with pub_date := s }
  | ("status", Json.str s) => { r with status := some s }
  | ("status", Json.null) => { r with status := none }
  | ("translated_description", Json.str s) => { r with translated_description := some s }
  | ("translated_description", Json.null) => { r with translated_description := none }
  | ("accumulated_time_minutes", Json.num n) => { r with accumulated_time_minutes := some n }
  | ("accumulated_time_minutes", Json.null) => { r with accumulated_time_minutes := none }
  | ("severity", Json.str s) => { r with severity := some s }
  | ("severity", Json.null) => { r with severity := none }
  | _ => r

/-- The `supabase.from("service_events").update(fields).eq("id", eventId)`
call: the datastore rejects the write (`none`) when the payload is empty
or names an unknown column or an ill-typed value; otherwise it applies
the payload to every row whose `id` matches. -/
def updateById (db : List EventRow) (eventId : Nat) (fs : List (String × Json)) :
    Option (List EventRow) :=
  if fs.all fieldOk && !fs.isEmpty then
    some (db.map (fun r => if r.id == eventId then fs.foldl setField r else r))
  else none

/-- Observable outcome of one `processEvent` invocation: the datastore
afterwards, whether the promise fulfilled, and how many LLM calls and
datastore writes were attempted. -/
structure ProcOutcome where
  db : List EventRow
  ok : Bool
  llmCalls : Nat
  writes : Nat
deriving DecidableEq

/-- `processEvent(event, supabase)` from src/utils.js lines 20-111: one
LLM call with the event's description; `JSON.parse` of the response body
(throwing on invalid JSON); the `if (!res)` truthiness check; then an
update of the rows whose id equals `event.id` with the spread of the
parsed value.  Any error is caught and rethrown, so `ok = false` means
the returned promise rejected. -/
def processEvent (llm : Llm) (event : EventRow) (db : List EventRow) : ProcOutcome :=
  match llm event.description with
  | .error _ => ⟨db, false, 1, 0⟩
  | .ok none => ⟨db, false, 1, 0⟩
  | .ok (some j) =>
    if j.truthy then
      match updateById db event.id j.spreadFields with
      | some db2 => ⟨db2, true, 1, 1⟩
      | none => ⟨db, false, 1, 1⟩
    else ⟨db, false, 1, 0⟩

/-- Observable outcome of the POST /summarize-event handler: the HTTP
response sent through `res`, the datastore afterwards, and the number of
LLM calls made. -/
structure SummarizeOutcome where
  resp : Option (Nat × String)
  db : List EventRow
  llmCalls : Nat
deriving DecidableEq

/-- POST /summarize-event (src/index.js lines 67-218): fetch the rows
whose id equals `eventId` (`fetchErr` models a datastore-level read
error); an error, missing data or empty list throws before any LLM call;
otherwise the first row's description is sent to the LLM, the response is
parsed, checked for truthiness and written back; every failure path is
caught and answered with 500. -/
def summarizeEventHandler (llm : Llm) (fetchErr : Bool) (eventId : Nat)
    (db : List EventRow) : SummarizeOutcome :=
  if fetchErr then
    ⟨some (500, "Error: Unable to summarize " ++ toString eventId), db, 0⟩
  else
    match db.filter (fun r => r.id == eventId) with
    | [] => ⟨some (500, "Error: Unable to summarize " ++ toString eventId), db, 0⟩
    | e :: _ =>
      match llm e.description with
      | .error _ => ⟨some (500, "Error: Unable to summarize " ++ toString eventId), db, 1⟩
      | .ok none => ⟨some (500, "Error: Unable to summarize " ++ toString eventId), db, 1⟩
      | .ok (some j) =>
        if j.truthy then
          match updateById db eventId j.spreadFields with
          | some db2 =>
            ⟨some (200, "Successfully summarized event " ++ toString eventId), db2, 1⟩
          | none => ⟨some (500, "Error: Unable to summarize " ++ toString eventId), db, 1⟩
        else ⟨some (500, "Error: Unable to summarize " ++ toString eventId), db, 1⟩

/-- Run one group of `processEvent` calls (`batch.map(...)` inside
`Promise.all`): every member's call is started and its effect applied;
the group's `Promise.all` fulfills only when every member fulfilled. -/
def runEventGroup (llm : Llm) : List EventRow → List EventRow → List EventRow × Bool
  | [], db => (db, true)
  | e :: es, db =>
    let p := processEvent llm e db
    let q := runEventGroup llm es p.db
    (q.1, p.ok && q.2)

/-- Aggregate outcome of driving the event groups of POST /process-events:
the datastore afterwards, the ids of the events whose summarization was
attempted, and whether every group fulfilled. -/
structure BulkOutcome where
  db : List EventRow
  attempted : List Nat
  allOk : Bool
deriving DecidableEq

/-- Drive event groups sequentially; a group whose `Promise.all` rejects
throws out of the loop, so no later group is started. -/
def runEventGroups (llm : Llm) : List (List EventRow) → List EventRow → BulkOutcome
  | [], db => ⟨db, [], true⟩
  | g :: gs, db =>
    let p := runEventGroup llm g db
    if p.2 then
      let q := runEventGroups llm gs p.1
      ⟨q.db, g.map (fun e => e.id) ++ q.attempted, q.allOk⟩
    else ⟨p.1, g.map (fun e => e.id), false⟩

/-- Observable outcome of the POST /process-events handler. -/
structure EventsOutcome where
  resp : Option (Nat × String)
  db : List EventRow
  attempted : List Nat
deriving DecidableEq

/-- POST /process-events (src/index.js lines 220-253): select the events
whose translated_description is null (`fetchErr` models a read error,
answered with 500); drive them in groups of BATCH_SIZE = 10; a rejected
group throws to the catch block (500).  When every group fulfills the
code executes `return new Response(...)`, a Fetch-API object that Express
ignores, so nothing is sent through `res`: the sent response is `none`. -/
def processEventsHandler (llm : Llm) (fetchErr : Bool) (db : List EventRow) :
    EventsOutcome :=
  if fetchErr then ⟨some (500, "Error while processing the events"), db, []⟩
  else
    let events := db.filter (fun r => r.translated_description.isNone)
    let r := runEventGroups llm (chunksFuel 10 events.length events) db
    if r.allOk then ⟨none, r.db, r.attempted⟩
    else ⟨some (500, "Error while processing the events"), r.db, r.attempted⟩

/-- `Promise.all` over `parser.parseURL(service.feed_url)` for every
service: fulfills with every service's items only when every fetch/parse
fulfilled, and rejects as soon as any single feed rejects. -/
def fetchFeeds (feeds : Nat → Except Unit (List FeedItem)) :
    List Nat → Except Unit (List (Nat × List FeedItem))
  | [] => .ok []
  | s :: ss =>
    match feeds s with
    | .error e => .error e
    | .ok items =>
      match fetchFeeds feeds ss with
      | .error e => .error e
      | .ok rest => .ok ((s, items) :: rest)

/-- Run `processBatch` (batchSize 10) for every service's parsed items.
With batchSize 10 the loop always terminates within `items.length`
iterations; the `none` branch of the fuel-indexed loop is unreachable
and leaves the datastore unchanged. -/
def runAllBatches (netFail : FeedItem → Bool) :
    List (Nat × List FeedItem) → List EventRow → List EventRow
  | [], db => db
  | (sid, items) :: rest, db =>
    let db2 :=
      match processBatchLoop netFail sid 10 items.length items db with
      | some r => r.1
      | none => db
    runAllBatches netFail rest db2

/-- Observable outcome of the POST /process-feeds handler. -/
structure FeedsOutcome where
  resp : Option (Nat × String)
  db : List EventRow
deriving DecidableEq

/-- POST /process-feeds (src/index.js lines 255-306): load the service
list (`services` is an error on a datastore-level failure, answered with
500); fetch and parse every feed under one `Promise.all`, whose rejection
reaches the catch block before any upsert runs; only when every feed
parsed are the per-service batches driven, then 200 is sent. -/
def processFeedsHandler (netFail : FeedItem → Bool)
    (feeds : Nat → Except Unit (List FeedItem))
    (services : Except Unit (List Nat)) (db : List EventRow) : FeedsOutcome :=
  match services with
  | .error _ => ⟨some (500, "Error while processing the feeds"), db⟩
  | .ok svcList =>
    match fetchFeeds feeds svcList with
    | .error _ => ⟨some (500, "Error while processing the feeds"), db⟩
    | .ok serviceResults =>
      ⟨some (200, "Successfully parsed RSS feeds and items"),
       runAllBatches netFail serviceResults db⟩

/-- Concrete unsummarized event row for witnesses and counterexamples. -/
def mkEv (i : Nat) (d : String) : EventRow :=
  ⟨i, 0, "g", "t", d, "p", none, none, none, none⟩

/-- A schema-conforming LLM response: the four fields with recognized enum values. -/
def goodJson : Json :=
  Json.obj [("status", Json.str "resolved"), ("translated_description", Json.str "x"),
            ("accumulated_time_minutes", Json.num 5), ("severity", Json.str "minor")]

/-- A schema-violating LLM response: exactly the four field names, but
unrecognized enum values for status and severity. -/
def badJson : Json :=
  Json.obj [("status", Json.str "bogus"), ("translated_description", Json.str "x"),
            ("accumulated_time_minutes", Json.num 5), ("severity", Json.str "extreme")]

/-- An LLM that always answers with the schema-conforming response. -/
def llmGood : Llm := fun _ => .ok (some goodJson)

/-- An LLM that always answers with the schema-violating response. -/
def llmBad : Llm := fun _ => .ok (some badJson)

/-- An LLM whose response body is never valid JSON. -/
def llmNone : Llm := fun _ => .ok none

/-- An LLM whose call rejects exactly on the description "bad". -/
def llmSel : Llm := fun d => if d == "bad" then .error () else .ok (some goodJson)

/-- Eleven unsummarized events; the one with id 3 has the description the
selective LLM rejects, and the one with id 11 falls into a second group
of BATCH_SIZE = 10. -/
def dbBulk : List EventRow :=
  [mkEv 1 "good", mkEv 2 "good", mkEv 3 "bad", mkEv 4 "good", mkEv 5 "good",
   mkEv 6 "good", mkEv 7 "good", mkEv 8 "good", mkEv 9 "good", mkEv 10 "good",
   mkEv 11 "good"]

/-- Concrete feed items for witnesses and counterexamples. -/
def itemA : FeedItem := ⟨"g1", "t1", "c1", "d1"⟩

/-- Second concrete feed item. -/
def itemB : FeedItem := ⟨"g2", "t2", "c2", "d2"⟩

/-- Third concrete feed item. -/
def itemC : FeedItem := ⟨"g3", "t3", "c3", "d3"⟩

/-- A datastore that accepts every upsert. -/
def noFail : FeedItem → Bool := fun _ => false

/-- A datastore that rejects exactly the upsert of the item with guid "g2". -/
def failB : FeedItem → Bool := fun it => it.guid == "g2"

/-- Three services whose feeds respond: service 2's feed is unreachable,
services 1 and 3 parse successfully. -/
def feedsW : Nat → Except Unit (List FeedItem) :=
  fun s => if s == 2 then .error () else .ok [itemA]

theorem runGroup_eq (nf : FeedItem → Bool) (sid : Nat) :
    ∀ (l : List FeedItem) (db : List EventRow),
      runGroup nf sid l db = (l.foldl (applyItem nf sid) db, l.map (itemOutcome nf)) := by
  intro l
  induction l with
  | nil => intro db; rfl
  | cons it rest ih =>
    intro db
    simp only [runGroup, List.foldl_cons, List.map_cons, ih]
    cases hnf : nf it <;> simp [rpcCall, itemOutcome, applyItem, hnf]

theorem runGroups_eq (nf : FeedItem → Bool) (sid : Nat) :
    ∀ (gs : List (List FeedItem)) (db : List EventRow),
      runGroups nf sid gs db
        = ((gs.flatten).foldl (applyItem nf sid) db, (gs.flatten).map (itemOutcome nf)) := by
  intro gs
  induction gs with
  | nil => intro db; rfl
  | cons g gs ih =>
    intro db
    simp only [runGroups, List.flatten_cons, List.foldl_append, List.map_append, runGroup_eq, ih]

theorem chunksFuel_join {α : Type} (bs : Nat) (hbs : 1 ≤ bs) :
    ∀ (fuel : Nat) (items : List α), items.length ≤ fuel →
      (chunksFuel bs fuel items).flatten = items := by
  intro fuel
  induction fuel with
  | zero =>
    intro items h
    have hnil : items = [] := List.length_eq_zero.mp (Nat.le_zero.mp h)
    subst hnil; rfl
  | succ fuel ih =>
    intro items h
    cases items with
    | nil => rfl
    | cons it rest =>
      have hlen : ((it :: rest).drop bs).length ≤ fuel := by
        rw [List.length_drop]
        simp only [List.length_cons] at h ⊢
        omega
      simp only [chunksFuel, List.flatten_cons, ih _ hlen, List.take_append_drop]

theorem chunksFuel_bounded {α : Type} (bs : Nat) :
    ∀ (fuel : Nat) (items : List α), ∀ g ∈ chunksFuel bs fuel items, g.length ≤ bs := by
  intro fuel
  induction fuel with
  | zero =>
    intro items g hg
    cases items <;> simp [chunksFuel] at hg
  | succ fuel ih =>
    intro items g hg
    cases items with
    | nil => simp [chunksFuel] at hg
    | cons it rest =>
      simp only [chunksFuel, List.mem_cons] at hg
      rcases hg with hg | hg
      · subst hg
        simp [List.length_take]
      · exact ih _ g hg

theorem processBatchLoop_eq_runGroups (nf : FeedItem → Bool) (sid bs : Nat) (hbs : 1 ≤ bs) :
    ∀ (fuel : Nat) (items : List FeedItem) (db : List EventRow), items.length ≤ fuel →
      processBatchLoop nf sid bs fuel items db
        = some (runGroups nf sid (chunksFuel bs fuel items) db) := by
  intro fuel
  induction fuel with
  | zero =>
    intro items db h
    have hnil : items = [] := List.length_eq_zero.mp (Nat.le_zero.mp h)
    subst hnil; rfl
  | succ fuel ih =>
    intro items db h
    cases items with
    | nil => rfl
    | cons it rest =>
      have hlen : ((it :: rest).drop bs).length ≤ fuel := by
        rw [List.length_drop]
        simp only [List.length_cons] at h ⊢
        omega
      simp only [processBatchLoop, chunksFuel, runGroups, ih _ _ hlen]

theorem processBatchLoop_eq_foldl (nf : FeedItem → Bool) (sid bs : Nat) (hbs : 1 ≤ bs)
    (fuel : Nat) (items : List FeedItem) (db : List EventRow) (h : items.length ≤ fuel) :
    processBatchLoop nf sid bs fuel items db
      = some (items.foldl (applyItem nf sid) db, items.map (itemOutcome nf)) := by
  rw [processBatchLoop_eq_runGroups nf sid bs hbs fuel items db h, runGroups_eq,
      chunksFuel_join bs hbs fuel items h]

theorem processBatchLoop_zero_diverges_aux (nf : FeedItem → Bool) (sid : Nat) :
    ∀ (fuel : Nat) (items : List FeedItem) (db : List EventRow), items ≠ [] →
      processBatchLoop nf sid 0 fuel items db = none := by
  intro fuel
  induction fuel with
  | zero =>
    intro items db h
    cases items with
    | nil => exact absurd rfl h
    | cons it rest => rfl
  | succ fuel ih =>
    intro items db h
    cases items with
    | nil => exact absurd rfl h
    | cons it rest =>
      simp only [processBatchLoop, List.take_zero, List.drop_zero, runGroup,
        ih (it :: rest) db h]

/-- C3: for every serviceId and every list of N items, processBatch
returns a results list of length exactly N in which each item's settled
outcome appears at its position, and the final datastore is the fold of
every item's own upsert effect, so the failure of any one item's upsert
(which leaves the datastore unchanged for that item only) does not
prevent the upsert of its siblings in the same group or of any item in a
later group. -/
theorem processBatch_collects_every_outcome (nf : FeedItem → Bool) (sid bs : Nat)
    (items : List FeedItem) (db : List EventRow) (hbs : 1 ≤ bs) :
    processBatch nf sid items bs db
      = some (items.foldl (applyItem nf sid) db, sid, items.map (itemOutcome nf))
    ∧ (items.map (itemOutcome nf)).length = items.length := by
  constructor
  · unfold processBatch
    rw [processBatchLoop_eq_foldl nf sid bs hbs items.length items db (le_refl _)]
  · exact List.length_map _ _

/-- Witness for C3 at a concrete input: three items with batch size 10,
where the second item's upsert is rejected by the datastore. -/
theorem processBatch_collects_every_outcome_witness :
    processBatch failB 1 [itemA, itemB, itemC] 10 []
      = some ([itemA, itemB, itemC].foldl (applyItem failB 1) [], 1,
              [itemA, itemB, itemC].map (itemOutcome failB))
    ∧ ([itemA, itemB, itemC].map (itemOutcome failB)).length = [itemA, itemB, itemC].length :=
  processBatch_collects_every_outcome failB 1 10 [itemA, itemB, itemC] [] (by decide)

/-- C8: for every batchSize ≥ 1, the processBatch loop partitions its
items into consecutive groups of at most batchSize in original order and
executes them strictly sequentially: group N+1's upserts start from the
datastore state left after every upsert of group N settled, so at no
instant are more than batchSize upserts in flight. -/
theorem processBatch_groups_bounded_sequential (nf : FeedItem → Bool) (sid bs : Nat)
    (items : List FeedItem) (db : List EventRow) (hbs : 1 ≤ bs) :
    ∃ gs : List (List FeedItem),
      gs.flatten = items
      ∧ (∀ g ∈ gs, g.length ≤ bs)
      ∧ processBatchLoop nf sid bs items.length items db = some (runGroups nf sid gs db) := by
  refine ⟨chunksFuel bs items.length items, ?_, ?_, ?_⟩
  · exact chunksFuel_join bs hbs items.length items (le_refl _)
  · exact chunksFuel_bounded bs items.length items
  · exact processBatchLoop_eq_runGroups nf sid bs hbs items.length items db (le_refl _)

/-- Witness for C8 at a concrete input: three items with batch size 2. -/
theorem processBatch_groups_bounded_sequential_witness :
    ∃ gs : List (List FeedItem),
      gs.flatten = [itemA, itemB, itemC]
      ∧ (∀ g ∈ gs, g.length ≤ 2)
      ∧ processBatchLoop noFail 1 2 [itemA, itemB, itemC].length [itemA, itemB, itemC] []
          = some (runGroups noFail 1 gs []) :=
  processBatch_groups_bounded_sequential noFail 1 2 [itemA, itemB, itemC] [] (by decide)

/-- C10: the processBatch loop terminates for every batchSize ≥ 1 (fuel
equal to the item count suffices, since each iteration advances by
batchSize), but for batchSize = 0 and a non-empty items list the index
never advances and the loop never exits, whatever fuel it is given: the
default of 10 is supplied by callers, not enforced inside processBatch. -/
theorem processBatch_termination_dichotomy (nf : FeedItem → Bool) (sid : Nat) :
    (∀ (bs : Nat) (items : List FeedItem) (db : List EventRow), 1 ≤ bs →
       ∃ r, processBatchLoop nf sid bs items.length items db = some r)
    ∧ (∀ (fuel : Nat) (items : List FeedItem) (db : List EventRow), items ≠ [] →
       processBatchLoop nf sid 0 fuel items db = none) := by
  constructor
  · intro bs items db hbs
    exact ⟨_, processBatchLoop_eq_foldl nf sid bs hbs items.length items db (le_refl _)⟩
  · intro fuel items db h
    exact processBatchLoop_zero_diverges_aux nf sid fuel items db h

/-- Witness for C10 at concrete inputs: one item terminates with batch
size 1, and never terminates with batch size 0 even with ample fuel. -/
theorem processBatch_termination_dichotomy_witness :
    (∃ r, processBatchLoop noFail 1 1 [itemA].length [itemA] [] = some r)
    ∧ processBatchLoop noFail 1 0 5 [itemA] [] = none := by
  constructor
  · exact (processBatch_termination_dichotomy noFail 1).1 1 [itemA] [] (by decide)
  · exact (processBatch_termination_dichotomy noFail 1).2 5 [itemA] [] (by decide)

theorem eventKey_updFields (sid : Nat) (g t d p : String) (r : EventRow) :
    eventKey sid g (updFields t d p r) = eventKey sid g r := rfl

theorem eventKey_newEventRow (nid sid : Nat) (g t d p : String) :
    eventKey sid g (newEventRow nid sid g t d p) = true := by
  simp [eventKey, newEventRow]

theorem countP_upd_map (sid : Nat) (g t d p : String) (db : List EventRow) :
    (db.map (fun r => if eventKey sid g r then updFields t d p r else r)).countP
        (eventKey sid g) = db.countP (eventKey sid g) := by
  rw [List.countP_map]
  apply List.countP_congr
  intro r hr
  by_cases hk : eventKey sid g r = true
  · simp [Function.comp, hk, eventKey_updFields]
  · simp [Function.comp, if_neg hk]

theorem mem_upd_map (sid : Nat) (g t d p : String) (db : List EventRow) (r : EventRow)
    (hr : r ∈ db.map (fun x => if eventKey sid g x then updFields t d p x else x))
    (hk : eventKey sid g r = true) :
    ∃ r0 ∈ db, eventKey sid g r0 = true ∧ r = updFields t d p r0 := by
  rcases List.mem_map.mp hr with ⟨x, hx, hxr⟩
  by_cases hkx : eventKey sid g x = true
  · exact ⟨x, hx, hkx, by rw [← hxr, if_pos hkx]⟩
  · rw [if_neg hkx] at hxr
    subst hxr
    exact absurd hk hkx

theorem countP_le_one_unique {α : Type} (p : α → Bool) :
    ∀ (l : List α), l.countP p ≤ 1 →
      ∀ a ∈ l, ∀ b ∈ l, p a = true → p b = true → a = b := by
  intro l
  induction l with
  | nil => intro _ a ha; cases ha
  | cons x xs ih =>
    intro h a ha b hb hpa hpb
    rw [List.countP_cons] at h
    rcases List.mem_cons.mp ha with rfl | ha0
    · rcases List.mem_cons.mp hb with rfl | hb0
      · rfl
      · exfalso
        have h1 : 0 < xs.countP p := List.countP_pos_iff.mpr ⟨b, hb0, hpb⟩
        rw [if_pos hpa] at h
        omega
    · rcases List.mem_cons.mp hb with rfl | hb0
      · exfalso
        have h1 : 0 < xs.countP p := List.countP_pos_iff.mpr ⟨a, ha0, hpa⟩
        rw [if_pos hpb] at h
        omega
      · exact ih (by omega) a ha0 b hb0 hpa hpb

theorem countP_eq_zero_of_any_false {α : Type} (p : α → Bool) (l : List α)
    (h : l.any p = false) : l.countP p = 0 := by
  rw [List.countP_eq_zero]
  intro a ha
  exact (List.any_eq_false.mp h) a ha

theorem upsert_any (db : List EventRow) (sid : Nat) (g t d p : String) :
    (upsert_service_event db sid g t d p).any (eventKey sid g) = true := by
  unfold upsert_service_event
  cases ha : db.any (eventKey sid g) with
  | false =>
    rw [if_neg (by simp)]
    refine List.any_eq_true.mpr ⟨newEventRow db.length sid g t d p, ?_, ?_⟩
    · exact List.mem_append.mpr (Or.inr (List.mem_singleton.mpr rfl))
    · exact eventKey_newEventRow _ _ _ _ _ _
  | true =>
    rw [if_pos rfl]
    rcases List.any_eq_true.mp ha with ⟨x, hx, hkx⟩
    refine List.any_eq_true.mpr ⟨updFields t d p x, ?_, ?_⟩
    · exact List.mem_map.mpr ⟨x, hx, by rw [if_pos hkx]⟩
    · rw [eventKey_updFields]; exact hkx

theorem upsert_countP (db : List EventRow) (sid : Nat) (g t d p : String)
    (h : db.countP (eventKey sid g) ≤ 1) :
    (upsert_service_event db sid g t d p).countP (eventKey sid g) = 1 := by
  unfold upsert_service_event
  cases ha : db.any (eventKey sid g) with
  | false =>
    rw [if_neg (by simp)]
    rw [List.countP_append, countP_eq_zero_of_any_false _ _ ha]
    simp [List.countP_cons, eventKey_newEventRow]
  | true =>
    rw [if_pos rfl, countP_upd_map]
    rcases List.any_eq_true.mp ha with ⟨x, hx, hkx⟩
    have h1 : 0 < db.countP (eventKey sid g) := List.countP_pos_iff.mpr ⟨x, hx, hkx⟩
    omega

theorem upsert_mem_key (db : List EventRow) (sid : Nat) (g t d p : String) (r : EventRow)
    (hr : r ∈ upsert_service_event db sid g t d p) (hk : eventKey sid g r = true) :
    (∃ r0 ∈ db, eventKey sid g r0 = true ∧ r = updFields t d p r0)
    ∨ (db.any (eventKey sid g) = false ∧ r = newEventRow db.length sid g t d p) := by
  unfold upsert_service_event at hr
  cases ha : db.any (eventKey sid g) with
  | true =>
    rw [if_pos ha] at hr
    exact Or.inl (mem_upd_map sid g t d p db r hr hk)
  | false =>
    rw [if_neg (by simp [ha])] at hr
    rcases List.mem_append.mp hr with h1 | h1
    · exfalso
      have hcontra := List.any_eq_true.mpr ⟨r, h1, hk⟩
      rw [ha] at hcontra
      simp at hcontra
    · exact Or.inr ⟨rfl, List.mem_singleton.mp h1⟩

/-- C5: under the natural-key uniqueness invariant (at most one row for
(serviceId, guid)), upserting the same item for the same service twice
leaves exactly one Event row for that natural key, carrying the latest
title, description and publish timestamp; the upsert never modifies the
row's structured fields: a pre-existing row keeps them, a fresh row has
them all null. -/
theorem upsert_twice_idempotent (db : List EventRow) (sid : Nat)
    (g t1 d1 p1 t2 d2 p2 : String)
    (h : db.countP (eventKey sid g) ≤ 1) :
    (upsert_service_event (upsert_service_event db sid g t1 d1 p1) sid g t2 d2 p2).countP
        (eventKey sid g) = 1
    ∧ ∀ r ∈ upsert_service_event (upsert_service_event db sid g t1 d1 p1) sid g t2 d2 p2,
        eventKey sid g r = true →
          r.title = t2 ∧ r.description = d2 ∧ r.pub_date = p2
          ∧ (∀ r2 ∈ db, eventKey sid g r2 = true →
               r.status = r2.status ∧ r.translated_description = r2.translated_description
               ∧ r.accumulated_time_minutes = r2.accumulated_time_minutes
               ∧ r.severity = r2.severity)
          ∧ (db.countP (eventKey sid g) = 0 →
               r.status = none ∧ r.translated_description = none
               ∧ r.accumulated_time_minutes = none ∧ r.severity = none) := by
  have h1 : (upsert_service_event db sid g t1 d1 p1).countP (eventKey sid g) = 1 :=
    upsert_countP db sid g t1 d1 p1 h
  refine ⟨upsert_countP _ sid g t2 d2 p2 (by omega), ?_⟩
  intro r hr hk
  rcases upsert_mem_key _ sid g t2 d2 p2 r hr hk with ⟨r1, hr1, hk1, rfl⟩ | ⟨hany, _⟩
  · rcases upsert_mem_key db sid g t1 d1 p1 r1 hr1 hk1 with ⟨r0, hr0, hk0, rfl⟩ | ⟨hany0, rfl⟩
    · refine ⟨rfl, rfl, rfl, ?_, ?_⟩
      · intro r2 hr2 hk2
        have heq : r2 = r0 := countP_le_one_unique (eventKey sid g) db h r2 hr2 r0 hr0 hk2 hk0
        subst heq
        exact ⟨rfl, rfl, rfl, rfl⟩
      · intro h0
        exfalso
        have hpos : 0 < db.countP (eventKey sid g) := List.countP_pos_iff.mpr ⟨r0, hr0, hk0⟩
        omega
    · refine ⟨rfl, rfl, rfl, ?_, ?_⟩
      · intro r2 hr2 hk2
        exfalso
        have hcontra := List.any_eq_true.mpr ⟨r2, hr2, hk2⟩
        rw [hany0] at hcontra
        simp at hcontra
      · intro _
        exact ⟨rfl, rfl, rfl, rfl⟩
  · exfalso
    rw [upsert_any db sid g t1 d1 p1] at hany
    simp at hany

/-- Witness for C5 at a concrete input: two upserts of guid "g1" for
service 1 into an empty datastore. -/
theorem upsert_twice_idempotent_witness :
    (upsert_service_event (upsert_service_event [] 1 "g1" "t1" "d1" "p1") 1 "g1" "t2" "d2" "p2").countP
        (eventKey 1 "g1") = 1
    ∧ ∀ r ∈ upsert_service_event (upsert_service_event [] 1 "g1" "t1" "d1" "p1") 1 "g1" "t2" "d2" "p2",
        eventKey 1 "g1" r = true →
          r.title = "t2" ∧ r.description = "d2" ∧ r.pub_date = "p2"
          ∧ (∀ r2 ∈ ([] : List EventRow), eventKey 1 "g1" r2 = true →
               r.status = r2.status ∧ r.translated_description = r2.translated_description
               ∧ r.accumulated_time_minutes = r2.accumulated_time_minutes
               ∧ r.severity = r2.severity)
          ∧ (([] : List EventRow).countP (eventKey 1 "g1") = 0 →
               r.status = none ∧ r.translated_description = none
               ∧ r.accumulated_time_minutes = none ∧ r.severity = none) :=
  upsert_twice_idempotent [] 1 "g1" "t1" "d1" "p1" "t2" "d2" "p2" (by decide)

theorem updateById_shape (db : List EventRow) (i : Nat) (fs : List (String × Json))
    (db2 : List EventRow) (h : updateById db i fs = some db2) :
    db2 = db.map (fun r => if r.id == i then fs.foldl setField r else r) := by
  unfold updateById at h
  by_cases hc : (fs.all fieldOk && !fs.isEmpty) = true
  · rw [if_pos hc] at h
    exact (Option.some.inj h).symm
  · rw [if_neg hc] at h
    exact Option.noConfusion h

theorem map_ite_id (db : List EventRow) (i : Nat) :
    db.map (fun r => if r.id == i then r else r) = db := by
  simp

/-- C9: one invocation of processEvent makes exactly one external LLM
call and at most one datastore write, and the resulting datastore is the
old one with at most the rows whose id equals the given event's id
rewritten: every other Event row is left unchanged in place. -/
theorem processEvent_frame (llm : Llm) (event : EventRow) (db : List EventRow) :
    (processEvent llm event db).llmCalls = 1
    ∧ (processEvent llm event db).writes ≤ 1
    ∧ ∃ f : EventRow → EventRow,
        (processEvent llm event db).db
          = db.map (fun r => if r.id == event.id then f r else r) := by
  cases hres : llm event.description with
  | error e =>
    refine ⟨by simp [processEvent, hres], by simp [processEvent, hres], fun r => r, ?_⟩
    simp [processEvent, hres, map_ite_id]
  | ok o =>
    cases o with
    | none =>
      refine ⟨by simp [processEvent, hres], by simp [processEvent, hres], fun r => r, ?_⟩
      simp [processEvent, hres, map_ite_id]
    | some j =>
      cases hj : j.truthy with
      | false =>
        refine ⟨by simp [processEvent, hres, hj], by simp [processEvent, hres, hj],
          fun r => r, ?_⟩
        simp [processEvent, hres, hj, map_ite_id]
      | true =>
        cases hupd : updateById db event.id j.spreadFields with
        | none =>
          refine ⟨by simp [processEvent, hres, hj, hupd],
            by simp [processEvent, hres, hj, hupd], fun r => r, ?_⟩
          simp [processEvent, hres, hj, hupd, map_ite_id]
        | some db2 =>
          refine ⟨by simp [processEvent, hres, hj, hupd],
            by simp [processEvent, hres, hj, hupd],
            fun r => j.spreadFields.foldl setField r, ?_⟩
          have hshape := updateById_shape db event.id j.spreadFields db2 hupd
          simp [processEvent, hres, hj, hupd, hshape]

/-- Counterexample to C6: the LLM answers with valid JSON carrying
exactly the four field names but unrecognized enum values ("bogus",
"extreme"); processEvent performs no schema validation, treats it as a
success, and writes it to the Event row. -/
theorem processEvent_schema_violation_written :
    (processEvent llmBad (mkEv 1 "d") [mkEv 1 "d"]).ok = true
    ∧ (processEvent llmBad (mkEv 1 "d") [mkEv 1 "d"]).db
        = [⟨1, 0, "g", "t", "d", "p", some "bogus", some "x", some 5, some "extreme"⟩]
    ∧ (processEvent llmBad (mkEv 1 "d") [mkEv 1 "d"]).db ≠ [mkEv 1 "d"] := by
  refine ⟨rfl, rfl, by decide⟩

/-- C6 amended: a response body that is not valid JSON (or whose parsed
value is falsy) is an error propagated to the caller with no retry and no
datastore write; but no schema validation occurs: any truthy parsed value
whose spread the datastore accepts is written to the Event row as-is,
whatever fields or enum values it carries. -/
theorem processEvent_parse_failure_not_written (llm : Llm) (event : EventRow)
    (db : List EventRow) :
    (llm event.description = Except.ok none →
       (processEvent llm event db).ok = false
       ∧ (processEvent llm event db).db = db
       ∧ (processEvent llm event db).writes = 0)
    ∧ (∀ (j : Json) (db2 : List EventRow),
         llm event.description = Except.ok (some j) → j.truthy = true →
         updateById db event.id j.spreadFields = some db2 →
         (processEvent llm event db).ok = true ∧ (processEvent llm event db).db = db2) := by
  constructor
  · intro hres
    refine ⟨by simp [processEvent, hres], by simp [processEvent, hres],
      by simp [processEvent, hres]⟩
  · intro j db2 hres hj hupd
    refine ⟨by simp [processEvent, hres, hj, hupd], by simp [processEvent, hres, hj, hupd]⟩

/-- Witness for the amended C6 at a concrete input: an invalid-JSON
response is rejected and nothing is written. -/
theorem processEvent_parse_failure_not_written_witness :
    (processEvent llmNone (mkEv 1 "d") []).ok = false
    ∧ (processEvent llmNone (mkEv 1 "d") []).db = []
    ∧ (processEvent llmNone (mkEv 1 "d") []).writes = 0 :=
  (processEvent_parse_failure_not_written llmNone (mkEv 1 "d") []).1 rfl

/-- Counterexample to C7: an event whose description is empty: the
handler performs no description validation, makes the LLM call anyway,
and (with a well-behaved LLM) succeeds with 200 instead of failing
without an LLM call. -/
theorem summarizeEvent_empty_description_calls_llm :
    (summarizeEventHandler llmGood false 1 [mkEv 1 ""]).llmCalls = 1
    ∧ (summarizeEventHandler llmGood false 1 [mkEv 1 ""]).resp
        = some (200, "Successfully summarized event 1")
    ∧ ¬ (summarizeEventHandler llmGood false 1 [mkEv 1 ""]).llmCalls = 0 := by
  refine ⟨rfl, by decide, by decide⟩

/-- C7 amended: the handler validates only existence: when the lookup
errors or no row matches the eventId it answers the 500 error without
retrying and without any LLM call; it never checks the description, so
the LLM is invoked with the event's description even when empty. -/
theorem summarizeEvent_absent_is_error (llm : Llm) (eventId : Nat) (db : List EventRow)
    (h : db.filter (fun r => r.id == eventId) = []) :
    (summarizeEventHandler llm false eventId db
       = ⟨some (500, "Error: Unable to summarize " ++ toString eventId), db, 0⟩)
    ∧ (summarizeEventHandler llm true eventId db
       = ⟨some (500, "Error: Unable to summarize " ++ toString eventId), db, 0⟩) := by
  constructor
  · simp [summarizeEventHandler, h]
  · simp [summarizeEventHandler]

/-- Witness for the amended C7 at a concrete input: eventId 7 is absent
from an empty datastore. -/
theorem summarizeEvent_absent_is_error_witness :
    (summarizeEventHandler llmGood false 7 []
       = ⟨some (500, "Error: Unable to summarize " ++ toString 7), [], 0⟩)
    ∧ (summarizeEventHandler llmGood true 7 []
       = ⟨some (500, "Error: Unable to summarize " ++ toString 7), [], 0⟩) :=
  summarizeEvent_absent_is_error llmGood 7 [] rfl

theorem fetchFeeds_error (feeds : Nat → Except Unit (List FeedItem)) :
    ∀ (l : List Nat), (∃ s ∈ l, feeds s = Except.error ()) →
      fetchFeeds feeds l = Except.error () := by
  intro l
  induction l with
  | nil => rintro ⟨s, hs, _⟩; cases hs
  | cons x xs ih =>
    rintro ⟨s, hs, herr⟩
    rcases List.mem_cons.mp hs with rfl | hs0
    · simp [fetchFeeds, herr]
    · cases hx : feeds x with
      | error e => simp [fetchFeeds, hx]
      | ok items => simp [fetchFeeds, hx, ih ⟨s, hs0, herr⟩]

/-- Counterexample to C1: three services where service 2's feed is
unreachable and services 1 and 3 parse fine; the handler answers 500 and
ingests nothing — services 1 and 3 are not ingested, no partial success
is reported, and the 200 response is not sent. -/
theorem processFeeds_one_bad_feed_aborts_all :
    processFeedsHandler noFail feedsW (Except.ok [1, 2, 3]) []
      = ⟨some (500, "Error while processing the feeds"), []⟩
    ∧ (processFeedsHandler noFail feedsW (Except.ok [1, 2, 3]) []).resp
        ≠ some (200, "Successfully parsed RSS feeds and items") := by
  refine ⟨rfl, by decide⟩

/-- C1 amended: a failure to load the service list answers 500 with no
ingestion, but so does a fetch/parse failure of any single service's
feed: the whole operation fails and no service's items are ingested; the
200 response is sent only when every feed parses successfully. -/
theorem processFeeds_failure_modes (nf : FeedItem → Bool)
    (feeds : Nat → Except Unit (List FeedItem)) (db : List EventRow) :
    (∀ e, processFeedsHandler nf feeds (Except.error e) db
        = ⟨some (500, "Error while processing the feeds"), db⟩)
    ∧ (∀ svcList, (∃ s ∈ svcList, feeds s = Except.error ()) →
        processFeedsHandler nf feeds (Except.ok svcList) db
          = ⟨some (500, "Error while processing the feeds"), db⟩)
    ∧ (∀ svcList rs, fetchFeeds feeds svcList = Except.ok rs →
        (processFeedsHandler nf feeds (Except.ok svcList) db).resp
          = some (200, "Successfully parsed RSS feeds and items")) := by
  refine ⟨?_, ?_, ?_⟩
  · intro e
    simp [processFeedsHandler]
  · intro svcList hex
    simp [processFeedsHandler, fetchFeeds_error feeds svcList hex]
  · intro svcList rs hok
    simp [processFeedsHandler, hok]

/-- Witness for the amended C1 at a concrete input: the feed of service
2 out of services [1, 2, 3] is unreachable. -/
theorem processFeeds_failure_modes_witness :
    processFeedsHandler noFail feedsW (Except.ok [1, 2, 3]) [mkEv 1 "d"]
      = ⟨some (500, "Error while processing the feeds"), [mkEv 1 "d"]⟩ :=
  (processFeeds_failure_modes noFail feedsW [mkEv 1 "d"]).2.1 [1, 2, 3] ⟨2, by decide, rfl⟩

/-- Counterexample to C2: eleven unsummarized events; event 3's LLM call
rejects.  Its group's Promise.all rejects: events 1-10 (the siblings)
are attempted, but event 11 — in the next group — is never attempted and
the handler answers 500, aborting the bulk operation. -/
theorem processEvents_later_group_not_attempted :
    (processEventsHandler llmSel false dbBulk).resp
      = some (500, "Error while processing the events")
    ∧ (processEventsHandler llmSel false dbBulk).attempted
        = [1, 2, 3, 4, 5, 6, 7, 8, 9, 10]
    ∧ ¬ (11 ∈ (processEventsHandler llmSel false dbBulk).attempted) := by
  refine ⟨rfl, rfl, by decide⟩

/-- C2 amended: when one event of a group fails, its siblings in that
group are still attempted (their promises were already started and their
effects applied), but the group's Promise.all rejection throws out of
the loop: no later group is attempted and the handler answers 500
instead of recording the failure and continuing. -/
theorem processEvents_group_failure_aborts (llm : Llm) :
    (∀ (g : List EventRow) (gs : List (List EventRow)) (db : List EventRow),
       (runEventGroup llm g db).2 = false →
       runEventGroups llm (g :: gs) db
         = ⟨(runEventGroup llm g db).1, g.map (fun e => e.id), false⟩)
    ∧ (∀ db : List EventRow,
       (runEventGroups llm
          (chunksFuel 10 (db.filter (fun r => r.translated_description.isNone)).length
            (db.filter (fun r => r.translated_description.isNone))) db).allOk = false →
       (processEventsHandler llm false db).resp
         = some (500, "Error while processing the events")) := by
  constructor
  · intro g gs db hfail
    simp [runEventGroups, hfail]
  · intro db hfail
    simp [processEventsHandler, hfail]

/-- Witness for the amended C2 at concrete inputs: a failing one-event
group followed by another group, and the eleven-event datastore. -/
theorem processEvents_group_failure_aborts_witness :
    runEventGroups llmSel [[mkEv 3 "bad"], [mkEv 4 "good"]] [mkEv 3 "bad", mkEv 4 "good"]
      = ⟨[mkEv 3 "bad", mkEv 4 "good"], [3], false⟩
    ∧ (processEventsHandler llmSel false dbBulk).resp
        = some (500, "Error while processing the events") := by
  constructor
  · exact (processEvents_group_failure_aborts llmSel).1 [mkEv 3 "bad"] [[mkEv 4 "good"]]
      [mkEv 3 "bad", mkEv 4 "good"] (by decide)
  · exact (processEvents_group_failure_aborts llmSel).2 dbBulk (by decide)

/-- C4 (code bug): on the success path the POST /process-events handler
executes `return new Response(...)` — a Fetch-API object that Express
ignores — so no HTTP response is ever sent through `res` (modelled as
`none`) and the claimed 200 text summary never reaches the caller; only
the fetch-failure path actually responds, with 500. -/
theorem processEvents_success_sends_nothing :
    (processEventsHandler llmGood false []).resp = none
    ∧ (processEventsHandler llmGood false [mkEv 1 "good"]).resp = none
    ∧ (processEventsHandler llmGood true []).resp
        = some (500, "Error while processing the events") := by
  refine ⟨rfl, rfl, rfl⟩
